import Mathlib

/-
Verification development for the mlx optimizer / learning-rate scheduler core
(file src/python/mlx/optimizers.py).

Modelling conventions.

Arrays: every update rule acts elementwise and per leaf, so array leaves are
modelled by a single exact rational scalar (the carrier is the field of
rationals).  Dtype casts (astype) are identities on this carrier.

External numeric collaborators: the square root and reciprocal square root of
the numeric array contract, and real powers from the math library, are not
rational-valued functions; they are taken as explicit function parameters of
the defs that use them, and all theorems quantify over them.  Division in the
carrier follows the Lean convention that division by zero yields zero.

Python errors raised by the code are modelled by the Except monad with an
explicit error type.  Reading an attribute that has not yet been assigned is
an attributeError, a missing dictionary key is a keyError.
-/

inductive PyErr where
  | valueError
  | typeError
  | attributeError
  | keyError
  | notImplementedError
deriving DecidableEq, Repr

def isErr {α : Type} : Except PyErr α → Bool
  | Except.error _ => true
  | Except.ok _ => false

namespace SGD

/-- Hyperparameters of the SGD rule, written by the constructor
(src/python/mlx/optimizers.py lines 127-145). -/
structure Cfg where
  learning_rate : ℚ
  momentum : ℚ
  weight_decay : ℚ
  dampening : ℚ
  nesterov : Bool
deriving DecidableEq, Repr

/-- Constructor of the SGD rule: raises a ValueError when nesterov is set
together with a non-positive momentum or a nonzero dampening, before any field
is assigned (lines 135-145). -/
def mk (learning_rate momentum weight_decay dampening : ℚ) (nesterov : Bool) :
    Except PyErr Cfg :=
  if nesterov ∧ (momentum ≤ 0 ∨ dampening ≠ 0) then
    Except.error PyErr.valueError
  else
    Except.ok ⟨learning_rate, momentum, weight_decay, dampening, nesterov⟩

/-- State initialization of SGD: v is zero filled (line 149). -/
def init_single (_parameter : ℚ) : ℚ := 0

/-- Single-parameter update of SGD (lines 151-173).  The learning rate lr is
read from the engine state at every call and is therefore an explicit
argument.  Returns the new parameter together with the new state entry v. -/
def apply_single (c : Cfg) (lr gradient parameter v : ℚ) : ℚ × ℚ :=
  let g := if c.weight_decay ≠ 0 then gradient + c.weight_decay * parameter
           else gradient
  if c.momentum ≤ 0 then
    (parameter - lr * g, v)
  else
    let v1 := c.momentum * v
    let v2 := if c.dampening > 0 then v1 + (1 - c.dampening) * g else v1 + g
    let upd := if c.nesterov then g + c.momentum * v2 else v2
    (parameter - lr * upd, v2)

end SGD

namespace RMSprop

/-- Hyperparameters of the RMSprop rule (lines 194-208). -/
structure Cfg where
  learning_rate : ℚ
  alpha : ℚ
  eps : ℚ
deriving DecidableEq, Repr

/-- Constructor of RMSprop: assigns the fields, then raises a ValueError when
alpha is negative or eps is negative (lines 194-208). -/
def mk (learning_rate alpha eps : ℚ) : Except PyErr Cfg :=
  if alpha < 0 then Except.error PyErr.valueError
  else if eps < 0 then Except.error PyErr.valueError
  else Except.ok ⟨learning_rate, alpha, eps⟩

/-- Single-parameter update of RMSprop (lines 214-224).  The square root of
the numeric collaborator is the function parameter sq. -/
def apply_single (sq : ℚ → ℚ) (c : Cfg) (lr gradient parameter v : ℚ) :
    ℚ × ℚ :=
  let v1 := c.alpha * v + (1 - c.alpha) * gradient ^ 2
  (parameter - lr * gradient / (sq v1 + c.eps), v1)

end RMSprop

namespace Adagrad

/-- Hyperparameters of the Adagrad rule (lines 246-255). -/
structure Cfg where
  learning_rate : ℚ
  eps : ℚ
deriving DecidableEq, Repr

/-- Constructor of Adagrad: raises a ValueError when eps is negative
(lines 246-255). -/
def mk (learning_rate eps : ℚ) : Except PyErr Cfg :=
  if eps < 0 then Except.error PyErr.valueError
  else Except.ok ⟨learning_rate, eps⟩

/-- Single-parameter update of Adagrad (lines 261-270): v accumulates the
squared gradient. -/
def apply_single (sq : ℚ → ℚ) (c : Cfg) (lr gradient parameter v : ℚ) :
    ℚ × ℚ :=
  let v1 := v + gradient ^ 2
  (parameter - lr * gradient / (sq v1 + c.eps), v1)

end Adagrad

namespace AdaDelta

/-- Hyperparameters of the AdaDelta rule (lines 295-308). -/
structure Cfg where
  learning_rate : ℚ
  rho : ℚ
  eps : ℚ
deriving DecidableEq, Repr

/-- Constructor of AdaDelta: raises a ValueError when rho is negative or eps
is negative (lines 295-308). -/
def mk (learning_rate rho eps : ℚ) : Except PyErr Cfg :=
  if rho < 0 then Except.error PyErr.valueError
  else if eps < 0 then Except.error PyErr.valueError
  else Except.ok ⟨learning_rate, rho, eps⟩

/-- Single-parameter update of AdaDelta (lines 315-332).  Returns the new
parameter together with the new state entries v and u. -/
def apply_single (sq : ℚ → ℚ) (c : Cfg) (lr gradient parameter v u : ℚ) :
    ℚ × ℚ × ℚ :=
  let v1 := c.rho * v + (1 - c.rho) * gradient ^ 2
  let d := sq (u + c.eps) / sq (v1 + c.eps) * gradient
  let u1 := c.rho * u + (1 - c.rho) * d ^ 2
  (parameter - lr * d, v1, u1)

end AdaDelta

namespace Adam

/-- Hyperparameters of the Adam rule (lines 359-366): the constructor performs
no validation. -/
structure Cfg where
  learning_rate : ℚ
  beta1 : ℚ
  beta2 : ℚ
  eps : ℚ
deriving DecidableEq, Repr

/-- Constructor of Adam: assigns the fields and never raises
(lines 359-366). -/
def mk (learning_rate beta1 beta2 eps : ℚ) : Except PyErr Cfg :=
  Except.ok ⟨learning_rate, beta1, beta2, eps⟩

/-- Single-parameter update of Adam (lines 373-387), without bias correction.
Returns the new parameter together with the new state entries m and v. -/
def apply_single (sq : ℚ → ℚ) (c : Cfg) (lr gradient parameter m v : ℚ) :
    ℚ × ℚ × ℚ :=
  let m1 := c.beta1 * m + (1 - c.beta1) * gradient
  let v1 := c.beta2 * v + (1 - c.beta2) * gradient ^ 2
  (parameter - lr * m1 / (sq v1 + c.eps), m1, v1)

end Adam

namespace AdamW

/-- Hyperparameters of the AdamW rule (lines 417-425). -/
structure Cfg where
  learning_rate : ℚ
  beta1 : ℚ
  beta2 : ℚ
  eps : ℚ
  weight_decay : ℚ
deriving DecidableEq, Repr

/-- Single-parameter update of AdamW (lines 427-435): delegates to the Adam
update with the parameter first multiplied by one minus lr times the weight
decay. -/
def apply_single (sq : ℚ → ℚ) (c : Cfg) (lr gradient parameter m v : ℚ) :
    ℚ × ℚ × ℚ :=
  Adam.apply_single sq ⟨c.learning_rate, c.beta1, c.beta2, c.eps⟩ lr gradient
    (parameter * (1 - lr * c.weight_decay)) m v

end AdamW

namespace Adamax

/-- Constructor of Adamax: delegates to the Adam constructor, then raises a
ValueError unless zero is at most eps (lines 462-469). -/
def mk (learning_rate beta1 beta2 eps : ℚ) : Except PyErr Adam.Cfg :=
  if ¬ (0 ≤ eps) then Except.error PyErr.valueError
  else Except.ok ⟨learning_rate, beta1, beta2, eps⟩

/-- Single-parameter update of Adamax (lines 476-491): the infinity-norm
variant of Adam; the denominator of the step has no square root. -/
def apply_single (c : Adam.Cfg) (lr gradient parameter m v : ℚ) :
    ℚ × ℚ × ℚ :=
  let m1 := c.beta1 * m + (1 - c.beta1) * gradient
  let v1 := max (c.beta2 * v) |gradient|
  (parameter - lr * m1 / (v1 + c.eps), m1, v1)

end Adamax

/-- Sign of a rational number, modelling the elementwise sign of the numeric
array contract: minus one, zero or one. -/
def qsign (x : ℚ) : ℚ :=
  if x < 0 then -1 else if 0 < x then 1 else 0

namespace Lion

/-- Hyperparameters of the Lion rule (lines 521-531). -/
structure Cfg where
  learning_rate : ℚ
  beta1 : ℚ
  beta2 : ℚ
  weight_decay : ℚ
deriving DecidableEq, Repr

/-- Single-parameter update of Lion (lines 537-549): the step direction is the
sign of an interpolation that uses the old momentum buffer. -/
def apply_single (c : Cfg) (lr gradient parameter m : ℚ) : ℚ × ℚ :=
  let cdir := c.beta1 * m + (1 - c.beta1) * gradient
  let m1 := c.beta2 * m + (1 - c.beta2) * gradient
  let p1 := if c.weight_decay > 0 then (1 - lr * c.weight_decay) * parameter
            else parameter
  (p1 - lr * qsign cdir, m1)

end Lion

namespace Adafactor

/-- Hyperparameters of the Adafactor rule (lines 585-607).  The learning rate
is optional: when it is not given, the constructor does not write the
learning_rate entry of the state at all. -/
structure Cfg where
  learning_rate : Option ℚ
  eps1 : ℚ
  eps2 : ℚ
  clip_threshold : ℚ
  decay_rate : ℚ
  beta_1 : Option ℚ
  weight_decay : ℚ
  scale_parameter : Bool
  relative_step : Bool
  warmup_init : Bool
deriving DecidableEq, Repr

/-- External real-valued functions consumed by Adafactor: the square root of
both the math library and the array contract, the reciprocal square root, and
the real power used for the decay exponent. -/
structure Ops where
  sq : ℚ → ℚ
  rsq : ℚ → ℚ
  pw : ℚ → ℚ → ℚ

/-- Per-leaf state of Adafactor in the scalar (non-factored) branch
(lines 609-621): a step counter, the running squared-gradient average, and the
first-moment average.  The exp_avg field is only read and written when beta_1
is set, exactly as the exp_avg key only exists in that case. -/
structure State where
  step : ℕ
  exp_avg_sq : ℚ
  exp_avg : ℚ
deriving DecidableEq, Repr

/-- RMS helper (lines 623-624) for a scalar input: the mean of the square of a
scalar is its square. -/
def compute_rms (ops : Ops) (x : ℚ) : ℚ := ops.sq (x ^ 2)

/-- Learning-rate helper (lines 626-636).  In relative-step mode the engine
learning rate lr is ignored; otherwise it is used as the relative step size.
The expression one over the square root of the step models 1 / math.sqrt. -/
def compute_learning_rate (ops : Ops) (c : Cfg) (lr : ℚ) (step : ℕ)
    (parameter_rms : ℚ) : ℚ :=
  let relative_step_size :=
    if c.relative_step then
      let min_step : ℚ := if c.warmup_init then (1 / 1000000) * step
                          else 1 / 100
      min min_step (1 / ops.sq step)
    else lr
  let parameter_scale : ℚ :=
    if c.scale_parameter then max c.eps2 parameter_rms else 1
  parameter_scale * relative_step_size

/-- Single-parameter update of Adafactor in the scalar branch
(lines 647-692), where the gradient rank is below two, so the factored
row/column accumulators are not used. -/
def apply_single (ops : Ops) (c : Cfg) (lr gradient parameter : ℚ)
    (st : State) : ℚ × State :=
  let step := st.step + 1
  let parameter_rms := compute_rms ops parameter
  let learning_rate := compute_learning_rate ops c lr step parameter_rms
  let beta_2 : ℚ := 1 - ops.pw step c.decay_rate
  let upd0 := gradient ^ 2 + c.eps1
  let exp_avg_sq1 := beta_2 * st.exp_avg_sq + (1 - beta_2) * upd0
  let upd1 := ops.rsq exp_avg_sq1 * gradient
  let upd2 := upd1 / max 1 (compute_rms ops upd1 / c.clip_threshold)
  let upd3 := learning_rate * upd2
  let (upd4, exp_avg1) :=
    match c.beta_1 with
    | some b1 => (b1 * st.exp_avg + (1 - b1) * upd3,
                  b1 * st.exp_avg + (1 - b1) * upd3)
    | none => (upd3, st.exp_avg)
  let p1 := if c.weight_decay ≠ 0 then
              parameter + parameter * (-c.weight_decay * learning_rate)
            else parameter
  (p1 - upd4, ⟨step, exp_avg_sq1, exp_avg1⟩)

end Adafactor

/-
Modelled from the spec: the tree-traversal collaborator tree_map lives in
mlx/utils.py, which is not part of the sources under verification.  The spec
describes the parameter, gradient and state trees as a recursive sum type,
Leaf or Node over an ordered collection of children, and tree_map as the
structural zip that applies a function positionally to corresponding leaves
and rebuilds the shape of the first input.  Key names are elided: positions
carry the correspondence.  A shape mismatch is modelled by the none result.
-/

mutual
inductive PyTree (α : Type) where
  | leaf (x : α)
  | node (kids : PyForest α)
inductive PyForest (α : Type) where
  | nil
  | cons (t : PyTree α) (ts : PyForest α)
end

mutual
def PyTree.map {α β : Type} (f : α → β) : PyTree α → PyTree β
  | .leaf x => .leaf (f x)
  | .node kids => .node (PyForest.map f kids)
def PyForest.map {α β : Type} (f : α → β) : PyForest α → PyForest β
  | .nil => .nil
  | .cons t ts => .cons (PyTree.map f t) (PyForest.map f ts)
end

mutual
def PyTree.zip3 {α β γ δ : Type} (f : α → β → γ → δ) :
    PyTree α → PyTree β → PyTree γ → Option (PyTree δ)
  | .leaf a, .leaf b, .leaf c => some (.leaf (f a b c))
  | .node ka, .node kb, .node kc =>
      (PyForest.zip3 f ka kb kc).map PyTree.node
  | _, _, _ => none
def PyForest.zip3 {α β γ δ : Type} (f : α → β → γ → δ) :
    PyForest α → PyForest β → PyForest γ → Option (PyForest δ)
  | .nil, .nil, .nil => some .nil
  | .cons a ka, .cons b kb, .cons c kc =>
      match PyTree.zip3 f a b c, PyForest.zip3 f ka kb kc with
      | some d, some kd => some (.cons d kd)
      | _, _ => none
  | _, _, _ => none
end

mutual
def PyTree.sameShape {α β : Type} : PyTree α → PyTree β → Bool
  | .leaf _, .leaf _ => true
  | .node ka, .node kb => PyForest.sameShape ka kb
  | _, _ => false
def PyForest.sameShape {α β : Type} : PyForest α → PyForest β → Bool
  | .nil, .nil => true
  | .cons a ka, .cons b kb => PyTree.sameShape a b && PyForest.sameShape ka kb
  | _, _ => false
end

/-- Per-parameter update rule capability, mirroring the two hook methods that
every concrete Optimizer subclass overrides.  S is the per-leaf state node
type.  The learning rate is an explicit argument because each apply_single
call reads it from the engine state. -/
structure Rule (S : Type) where
  init_single : ℚ → S
  apply_single : ℚ → ℚ → ℚ → S → ℚ × S

/-- Engine state of the Optimizer base class (lines 15-17 and 91-106): the
initialization flag, the reserved learning_rate entry of the state dictionary
(none when the key is absent), and the per-parameter part of the state
dictionary (none while it holds no parameter keys). -/
structure EngineState (S : Type) where
  inited : Bool
  lr : Option ℚ
  stree : Option (PyTree S)

/-- Getter of the learning_rate property (lines 100-102): a plain dictionary
lookup that raises a KeyError when the entry is absent. -/
def learning_rate_get {S : Type} (e : EngineState S) : Except PyErr ℚ :=
  match e.lr with
  | some l => Except.ok l
  | none => Except.error PyErr.keyError

/-- Setter of the state property (lines 96-98): replaces the whole state
dictionary and leaves the initialization flag untouched. -/
def state_set {S : Type} (e : EngineState S) (lr : Option ℚ)
    (stree : Option (PyTree S)) : EngineState S :=
  ⟨e.inited, lr, stree⟩

/-- Eager initialization (lines 30-53): every parameter key of the state is
replaced by a fresh node built by init_single from the matching leaf of the
tree that was passed in, and the flag is set.  The learning_rate entry is a
distinct top-level key and is untouched. -/
def engine_init {S : Type} (R : Rule S) (parameters : PyTree ℚ)
    (e : EngineState S) : EngineState S :=
  ⟨true, e.lr, some (parameters.map R.init_single)⟩

/-- Gradient application (lines 64-79): initializes from the gradient tree
when the flag is unset, then walks the (gradient, parameter, state) triples
with apply_single, returning the tree of new parameters, shaped like the
gradients, together with the mutated engine.  A missing learning_rate entry
or a shape mismatch yields none. -/
def apply_gradients {S : Type} (R : Rule S) (gradients parameters : PyTree ℚ)
    (e : EngineState S) : Option (PyTree ℚ × EngineState S) :=
  let e1 := if e.inited then e else engine_init R gradients e
  match e1.lr, e1.stree with
  | some l, some st =>
      match PyTree.zip3 (fun g p s => R.apply_single l g p s) gradients
          parameters st with
      | some t => some (t.map Prod.fst, ⟨e1.inited, e1.lr, some (t.map Prod.snd)⟩)
      | none => none
  | _, _ => none

/-- SGD as a rule value together with its freshly constructed engine, as the
SGD constructor leaves it: not initialized, learning_rate written, no
parameter keys (lines 127-149). -/
def SGD.rule (c : SGD.Cfg) : Rule ℚ :=
  ⟨SGD.init_single, fun l g p v => SGD.apply_single c l g p v⟩

def SGD.freshEngine (c : SGD.Cfg) : EngineState ℚ :=
  ⟨false, some c.learning_rate, none⟩

mutual
theorem pyTree_sameShape_map {α β : Type} (h : α → β) :
    ∀ (t : PyTree α), PyTree.sameShape t (t.map h) = true
  | .leaf _ => by simp [PyTree.map, PyTree.sameShape]
  | .node k => by
      simpa [PyTree.map, PyTree.sameShape] using pyForest_sameShape_map h k
theorem pyForest_sameShape_map {α β : Type} (h : α → β) :
    ∀ (k : PyForest α), PyForest.sameShape k (k.map h) = true
  | .nil => by simp [PyForest.map, PyForest.sameShape]
  | .cons t ts => by
      simp [PyForest.map, PyForest.sameShape]
      exact ⟨pyTree_sameShape_map h t, pyForest_sameShape_map h ts⟩
end

mutual
theorem pyTree_zip3_some_sameShape {α β γ δ : Type} (f : α → β → γ → δ) :
    ∀ (g : PyTree α) (p : PyTree β) (s : PyTree γ) (t : PyTree δ),
      PyTree.zip3 f g p s = some t → PyTree.sameShape g s = true
  | .leaf _, _, .leaf _, _, _ => by simp [PyTree.sameShape]
  | .leaf _, _, .node _, _, h => by
      cases ‹PyTree β› <;> simp [PyTree.zip3] at h
  | .node _, .leaf _, _, _, h => by simp [PyTree.zip3] at h
  | .node ka, .node kb, .leaf _, _, h => by simp [PyTree.zip3] at h
  | .node ka, .node kb, .node kc, t, h => by
      simp only [PyTree.zip3, Option.map_eq_some'] at h
      obtain ⟨kd, hkd, _⟩ := h
      simpa [PyTree.sameShape] using
        pyForest_zip3_some_sameShape f ka kb kc kd hkd
theorem pyForest_zip3_some_sameShape {α β γ δ : Type} (f : α → β → γ → δ) :
    ∀ (g : PyForest α) (p : PyForest β) (s : PyForest γ) (t : PyForest δ),
      PyForest.zip3 f g p s = some t → PyForest.sameShape g s = true
  | .nil, _, .nil, _, _ => by simp [PyForest.sameShape]
  | .nil, p, .cons _ _, _, h => by
      cases p <;> simp [PyForest.zip3] at h
  | .cons _ _, .nil, _, _, h => by simp [PyForest.zip3] at h
  | .cons _ _, .cons _ _, .nil, _, h => by simp [PyForest.zip3] at h
  | .cons a ka, .cons b kb, .cons c kc, t, h => by
      simp only [PyForest.zip3] at h
      rcases hd : PyTree.zip3 f a b c with _ | d <;> rw [hd] at h <;>
        rcases hk : PyForest.zip3 f ka kb kc with _ | kd <;> rw [hk] at h <;>
          simp at h
      simp [PyForest.sameShape]
      exact ⟨pyTree_zip3_some_sameShape f a b c d hd,
        pyForest_zip3_some_sameShape f ka kb kc kd hk⟩
end

mutual
theorem pyTree_zip3_fst_indep {S : Type} (f : ℚ → ℚ → S → ℚ × S)
    (hf : ∀ g p s u, (f g p s).1 = (f g p u).1) :
    ∀ (g p : PyTree ℚ) (s u : PyTree S),
      PyTree.sameShape g s = true → PyTree.sameShape g u = true →
      (PyTree.zip3 f g p s).map (PyTree.map Prod.fst)
        = (PyTree.zip3 f g p u).map (PyTree.map Prod.fst)
  | .leaf a, p, .leaf c, .leaf d, _, _ => by
      cases p <;> simp [PyTree.zip3, PyTree.map, hf a _ c d]
  | .leaf _, _, .leaf _, .node _, _, h2 => by
      simp [PyTree.sameShape] at h2
  | .leaf _, _, .node _, _, h1, _ => by simp [PyTree.sameShape] at h1
  | .node ka, p, .node kc, .node kd, h1, h2 => by
      cases p with
      | leaf _ => simp [PyTree.zip3]
      | node kb =>
          have ih := pyForest_zip3_fst_indep f hf ka kb kc kd
            (by simpa [PyTree.sameShape] using h1)
            (by simpa [PyTree.sameShape] using h2)
          calc (PyTree.zip3 f (.node ka) (.node kb) (.node kc)).map
                  (PyTree.map Prod.fst)
              = ((PyForest.zip3 f ka kb kc).map
                  (PyForest.map Prod.fst)).map PyTree.node := by
                simp [PyTree.zip3, Option.map_map]; rfl
            _ = ((PyForest.zip3 f ka kb kd).map
                  (PyForest.map Prod.fst)).map PyTree.node := by rw [ih]
            _ = (PyTree.zip3 f (.node ka) (.node kb) (.node kd)).map
                  (PyTree.map Prod.fst) := by
                simp [PyTree.zip3, Option.map_map]; rfl
  | .node _, _, .node _, .leaf _, _, h2 => by
      simp [PyTree.sameShape] at h2
  | .node _, _, .leaf _, _, h1, _ => by simp [PyTree.sameShape] at h1
theorem pyForest_zip3_fst_indep {S : Type} (f : ℚ → ℚ → S → ℚ × S)
    (hf : ∀ g p s u, (f g p s).1 = (f g p u).1) :
    ∀ (g p : PyForest ℚ) (s u : PyForest S),
      PyForest.sameShape g s = true → PyForest.sameShape g u = true →
      (PyForest.zip3 f g p s).map (PyForest.map Prod.fst)
        = (PyForest.zip3 f g p u).map (PyForest.map Prod.fst)
  | .nil, p, .nil, .nil, _, _ => by cases p <;> simp [PyForest.zip3]
  | .nil, _, .nil, .cons _ _, _, h2 => by simp [PyForest.sameShape] at h2
  | .nil, _, .cons _ _, _, h1, _ => by simp [PyForest.sameShape] at h1
  | .cons a ka, p, .cons c kc, .cons d kd, h1, h2 => by
      cases p with
      | nil => simp [PyForest.zip3]
      | cons b kb =>
          have iht := pyTree_zip3_fst_indep f hf a b c d
            (by simp [PyForest.sameShape] at h1; exact h1.1)
            (by simp [PyForest.sameShape] at h2; exact h2.1)
          have ihk := pyForest_zip3_fst_indep f hf ka kb kc kd
            (by simp [PyForest.sameShape] at h1; exact h1.2)
            (by simp [PyForest.sameShape] at h2; exact h2.2)
          simp only [PyForest.zip3]
          rcases hc : PyTree.zip3 f a b c with _ | tc <;>
            rcases hdd : PyTree.zip3 f a b d with _ | td <;>
              rw [hc] at iht <;> rw [hdd] at iht <;> simp at iht <;>
                rcases hkc : PyForest.zip3 f ka kb kc with _ | fkc <;>
                  rcases hkd : PyForest.zip3 f ka kb kd with _ | fkd <;>
                    rw [hkc] at ihk <;> rw [hkd] at ihk <;> simp at ihk <;>
                      simp [PyForest.map, iht, ihk]
  | .cons _ _, _, .cons _ _, .nil, _, h2 => by simp [PyForest.sameShape] at h2
  | .cons _ _, _, .nil, _, h1, _ => by simp [PyForest.sameShape] at h1
end

/-- Round-trip transfer lemma: when the single-parameter update returns a new
parameter that does not depend on the state node, exporting the state of any
engine into a fresh (not yet initialized) engine and applying the same
gradients and parameters returns the same updated parameter tree, even though
the fresh engine re-initializes its per-parameter state. -/
theorem roundtrip_state_indep {S : Type} (R : Rule S)
    (hR : ∀ l g p s u, (R.apply_single l g p s).1 = (R.apply_single l g p u).1)
    (g p : PyTree ℚ) (e : EngineState S) (fresh : EngineState S)
    (hfresh : fresh.inited = false) (out : PyTree ℚ) (e1 : EngineState S)
    (h : apply_gradients R g p e = some (out, e1)) :
    (apply_gradients R g p (state_set fresh e.lr e.stree)).map Prod.fst
      = some out := by
  obtain ⟨bi, lrv, stv⟩ := e
  obtain ⟨bf, lrf, stf⟩ := fresh
  simp only at hfresh
  subst hfresh
  cases bi with
  | false =>
      have : state_set (⟨false, lrf, stf⟩ : EngineState S) lrv stv
          = (⟨false, lrv, stv⟩ : EngineState S) := rfl
      rw [this, h]
      rfl
  | true =>
      simp only [apply_gradients, if_true, reduceIte] at h
      cases lrv with
      | none => simp at h
      | some l =>
          cases stv with
          | none => simp at h
          | some st =>
              simp only at h
              rcases hz : PyTree.zip3 (fun a b c => R.apply_single l a b c)
                  g p st with _ | t
              · rw [hz] at h; simp at h
              · rw [hz] at h
                simp only [Option.some_inj] at h
                have hout : t.map Prod.fst = out := congrArg Prod.fst h
                have hsh1 : PyTree.sameShape g st = true :=
                  pyTree_zip3_some_sameShape _ g p st t hz
                have hsh2 : PyTree.sameShape g (g.map R.init_single) = true :=
                  pyTree_sameShape_map R.init_single g
                have key := pyTree_zip3_fst_indep
                  (fun a b c => R.apply_single l a b c)
                  (fun a b c d => hR l a b c d) g p st
                  (g.map R.init_single) hsh1 hsh2
                rw [hz] at key
                simp only [Option.map_some'] at key
                rcases hz2 : PyTree.zip3 (fun a b c => R.apply_single l a b c)
                    g p (g.map R.init_single) with _ | t2
                · rw [hz2] at key; simp at key
                · rw [hz2] at key
                  simp only [Option.map_some', Option.some_inj] at key
                  show (apply_gradients R g p ⟨false, some l, some st⟩).map
                      Prod.fst = some out
                  simp only [apply_gradients, engine_init, Bool.false_eq_true,
                    reduceIte, hz2]
                  simp only [Option.map_some']
                  rw [← key, hout]

/-- Concrete SGD configuration used by the round-trip counterexample:
learning rate one tenth, momentum nine tenths. -/
def sgdMomCfg : SGD.Cfg := ⟨1/10, 9/10, 0, 0, false⟩

/-- C1, counterexample: for SGD with momentum nine tenths, the engine that has
taken one gradient step holds v equal to one; continuing it on the same
gradient and the updated parameter yields seventy-one hundredths, while the
round trip through the state getter, a fresh engine and the state setter
yields four fifths, because the setter leaves the initialization flag unset
and the next apply_gradients call re-initializes v to zero.  The exported
parameters therefore differ, refuting the claim as stated. -/
theorem C1_round_trip_counterexample :
    (apply_gradients (SGD.rule sgdMomCfg) (.leaf 1) (.leaf 1)
        (SGD.freshEngine sgdMomCfg)
      = some (.leaf (9/10), ⟨true, some (1/10), some (.leaf 1)⟩))
    ∧ ((apply_gradients (SGD.rule sgdMomCfg) (.leaf 1) (.leaf (9/10))
        (⟨true, some (1/10), some (.leaf 1)⟩ : EngineState ℚ)).map Prod.fst
      = some (.leaf (71/100)))
    ∧ ((apply_gradients (SGD.rule sgdMomCfg) (.leaf 1) (.leaf (9/10))
        (state_set (SGD.freshEngine sgdMomCfg) (some (1/10))
          (some (.leaf 1)))).map Prod.fst
      = some (.leaf (4/5)))
    ∧ PyTree.leaf ((71 : ℚ)/100) ≠ PyTree.leaf ((4 : ℚ)/5) := by
  refine ⟨?_, ?_, ?_, ?_⟩
  · norm_num [apply_gradients, engine_init, SGD.rule, SGD.freshEngine,
      sgdMomCfg, SGD.apply_single, SGD.init_single, PyTree.map, PyTree.zip3]
  · norm_num [apply_gradients, engine_init, SGD.rule, sgdMomCfg,
      SGD.apply_single, SGD.init_single, PyTree.map, PyTree.zip3]
  · norm_num [apply_gradients, engine_init, state_set, SGD.rule,
      SGD.freshEngine, sgdMomCfg, SGD.apply_single, SGD.init_single,
      PyTree.map, PyTree.zip3]
  · intro hcontra
    have : ((71 : ℚ)/100) = ((4 : ℚ)/5) := by
      injection hcontra
    norm_num at this

/-- C1 (amended): the round trip through the state getter, a fresh engine and
the state setter yields updated parameters identical to continuing the
original engine for every rule whose single-parameter update returns a new
parameter independent of the state node; SGD with momentum at most zero is
such a rule.  In general the setter leaves the initialization flag unset, so
the next apply_gradients call of the fresh engine rebuilds the per-parameter
state from the gradients, and state-dependent rules diverge. -/
theorem C1_round_trip :
    (∀ {S : Type} (R : Rule S),
      (∀ l g p s u, (R.apply_single l g p s).1 = (R.apply_single l g p u).1) →
      ∀ (g p : PyTree ℚ) (e fresh : EngineState S), fresh.inited = false →
      ∀ out e1, apply_gradients R g p e = some (out, e1) →
        (apply_gradients R g p (state_set fresh e.lr e.stree)).map Prod.fst
          = some out)
    ∧ (∀ c : SGD.Cfg, c.momentum ≤ 0 → ∀ l g p s u,
        ((SGD.rule c).apply_single l g p s).1
          = ((SGD.rule c).apply_single l g p u).1) := by
  constructor
  · intro S R hR g p e fresh hf out e1 h
    exact roundtrip_state_indep R hR g p e fresh hf out e1 h
  · intro c hc l g p s u
    simp [SGD.rule, SGD.apply_single, hc]

/-- Witness for C1 (amended) at momentum zero: the fresh engine loaded with an
arbitrary exported state node v equal to five reproduces the original update
nine tenths. -/
theorem C1_round_trip_witness :
    (apply_gradients (SGD.rule ⟨1/10, 0, 0, 0, false⟩) (.leaf 1) (.leaf 1)
        (state_set (SGD.freshEngine ⟨1/10, 0, 0, 0, false⟩) (some (1/10))
          (some (.leaf 5)))).map Prod.fst
      = some (.leaf (9/10)) := by
  have h : apply_gradients (SGD.rule ⟨1/10, 0, 0, 0, false⟩) (.leaf 1)
      (.leaf 1) (⟨true, some (1/10), some (.leaf 5)⟩ : EngineState ℚ)
      = some (.leaf (9/10), ⟨true, some (1/10), some (.leaf 5)⟩) := by
    norm_num [apply_gradients, SGD.rule, SGD.apply_single, PyTree.zip3,
      PyTree.map]
  exact C1_round_trip.1 (SGD.rule ⟨1/10, 0, 0, 0, false⟩)
    (C1_round_trip.2 ⟨1/10, 0, 0, 0, false⟩ le_rfl) (.leaf 1) (.leaf 1)
    ⟨true, some (1/10), some (.leaf 5)⟩
    (SGD.freshEngine ⟨1/10, 0, 0, 0, false⟩) rfl (.leaf (9/10))
    ⟨true, some (1/10), some (.leaf 5)⟩ h

/-- Engine of a freshly constructed RMSprop optimizer (lines 194-199). -/
def RMSprop.freshEngine (c : RMSprop.Cfg) : EngineState ℚ :=
  ⟨false, some c.learning_rate, none⟩

/-- Engine of a freshly constructed Adagrad optimizer (lines 246-249). -/
def Adagrad.freshEngine (c : Adagrad.Cfg) : EngineState ℚ :=
  ⟨false, some c.learning_rate, none⟩

/-- Engine of a freshly constructed AdaDelta optimizer (lines 295-298). -/
def AdaDelta.freshEngine (c : AdaDelta.Cfg) : EngineState (ℚ × ℚ) :=
  ⟨false, some c.learning_rate, none⟩

/-- Engine of a freshly constructed Adam optimizer (lines 359-364); the state
node pairs m with v. -/
def Adam.freshEngine (c : Adam.Cfg) : EngineState (ℚ × ℚ) :=
  ⟨false, some c.learning_rate, none⟩

/-- Engine of a freshly constructed AdamW optimizer (lines 417-425). -/
def AdamW.freshEngine (c : AdamW.Cfg) : EngineState (ℚ × ℚ) :=
  ⟨false, some c.learning_rate, none⟩

/-- Engine of a freshly constructed Adamax optimizer (lines 462-465). -/
def Adamax.freshEngine (c : Adam.Cfg) : EngineState (ℚ × ℚ) :=
  ⟨false, some c.learning_rate, none⟩

/-- Engine of a freshly constructed Lion optimizer (lines 521-529). -/
def Lion.freshEngine (c : Lion.Cfg) : EngineState ℚ :=
  ⟨false, some c.learning_rate, none⟩

/-- Engine of a freshly constructed Adafactor optimizer (lines 585-599): the
learning_rate entry of the state dictionary is written only when a learning
rate was given to the constructor. -/
def Adafactor.freshEngine (c : Adafactor.Cfg) : EngineState Adafactor.State :=
  ⟨false, c.learning_rate, none⟩

/-- Target of a scheduler binding: either an update-rule engine carrying a
learning rate entry, or any other object. -/
inductive Bindable where
  | engine (lr : Option ℚ)
  | nonEngine
deriving DecidableEq, Repr

/-- Type check at the top of the LRScheduler initializer (lines 703-705): a
TypeError is raised, before anything else happens, when the bound object is
not an Optimizer. -/
def LRScheduler.bind_check : Bindable → Except PyErr Unit
  | .engine _ => Except.ok ()
  | .nonEngine => Except.error PyErr.typeError

namespace StepLR

/-- Learning-rate formula of StepLR as written in the source text (line 740):
base rate times gamma to the floor division of last_epoch by step_size.  The
surrounding class body is syntactically broken in the source, because the
init header and the closing quotes of the docstring are missing between
lines 728 and 730, so the module cannot be imported; this definition
transcribes the formula text that the docstring region carries. -/
def get_lr (base_lr gamma : ℚ) (step_size last_epoch : ℤ) : ℚ :=
  base_lr * gamma ^ Int.fdiv last_epoch step_size

end StepLR

namespace ExponentialLR

/-- Attribute state of an ExponentialLR object: gamma is none while the
attribute has not yet been assigned. -/
structure Obj where
  last_epoch : ℤ
  base_lr : ℚ
  gamma : Option ℚ
deriving DecidableEq, Repr

/-- Lookup performed by get_lr of ExponentialLR (lines 756-757): base rate
times gamma to the last epoch; reading gamma before it has been assigned
raises an AttributeError. -/
def get_lr (s : Obj) : Except PyErr ℚ :=
  match s.gamma with
  | none => Except.error PyErr.attributeError
  | some g => Except.ok (s.base_lr * g ^ s.last_epoch)

/-- Constructor of ExponentialLR (lines 752-754) bound to a valid optimizer
whose learning rate is optLr.  The base initializer (lines 703-709) stores
last_epoch and base_lr and then eagerly calls step, which dispatches to the
subclass get_lr while self.gamma is still unassigned, because the subclass
assigns gamma only after the base initializer returns.  On success the
object would be returned together with the learning rate written into the
optimizer. -/
def mk (optLr gamma : ℚ) (last_epoch : ℤ) : Except PyErr (Obj × ℚ) :=
  let s0 : Obj := ⟨last_epoch, optLr, none⟩
  match get_lr s0 with
  | Except.error e => Except.error e
  | Except.ok lr0 => Except.ok (⟨last_epoch, optLr, some gamma⟩, lr0)

end ExponentialLR

namespace CosineAnnealingLR

/-- Attribute state of a CosineAnnealingLR object: T_max and eta_min are none
while the attributes have not yet been assigned. -/
structure Obj where
  last_epoch : ℤ
  base_lr : ℚ
  T_max : Option ℤ
  eta_min : Option ℚ
deriving DecidableEq, Repr

/-- Lookup performed by get_lr of CosineAnnealingLR (lines 857-865).  The
external cosine is abstracted by cosf, standing for the map from x to the
cosine of pi times x.  At last epoch zero the base rate is returned without
reading any attribute; otherwise reading the unassigned attributes raises an
AttributeError. -/
def get_lr (cosf : ℚ → ℚ) (s : Obj) : Except PyErr ℚ :=
  if s.last_epoch = 0 then Except.ok s.base_lr
  else
    match s.eta_min, s.T_max with
    | some em, some T =>
        Except.ok (em + (s.base_lr - em) * (1 + cosf (s.last_epoch / T)) / 2)
    | _, _ => Except.error PyErr.attributeError

/-- Constructor of CosineAnnealingLR (lines 850-855): the base initializer
eagerly steps before the subclass assigns T_max and eta_min. -/
def mk (cosf : ℚ → ℚ) (optLr : ℚ) (T_max : ℤ) (eta_min : ℚ)
    (last_epoch : ℤ) : Except PyErr (Obj × ℚ) :=
  let s0 : Obj := ⟨last_epoch, optLr, none, none⟩
  match get_lr cosf s0 with
  | Except.error e => Except.error e
  | Except.ok lr0 =>
      Except.ok (⟨last_epoch, optLr, some T_max, some eta_min⟩, lr0)

end CosineAnnealingLR

namespace SequentialLR

/-- Fully configured sub-scheduler of the composition scenario: a StepLR or
an ExponentialLR with its base rate and fixed parameters. -/
inductive Sub where
  | stepSub (base_lr gamma : ℚ) (step_size : ℤ)
  | expoSub (base_lr gamma : ℚ)
deriving DecidableEq, Repr

/-- Learning-rate value of a sub-scheduler at an epoch, per the formulas of
StepLR (line 740) and ExponentialLR (lines 756-757). -/
def Sub.get_lr : Sub → ℤ → ℚ
  | .stepSub b g sz, e => b * g ^ Int.fdiv e sz
  | .expoSub b g, e => b * g ^ e

/-- Mutable state of a SequentialLR object as the intended construction would
leave it: the sub-schedulers, the milestones, the index of
current_scheduler, and last_epoch. -/
structure Obj where
  schedulers : List Sub
  milestones : List ℤ
  current : ℕ
  last_epoch : ℤ
deriving DecidableEq, Repr

/-- Transition step of SequentialLR (lines 885-891): when the epoch is in the
milestone list, current_scheduler becomes the sub-scheduler at the index of
that milestone in the list; the step is then delegated to the currently
active sub-scheduler, whose get_lr value is written into the optimizer and
returned here. -/
def step (s : Obj) (epoch : ℤ) : Obj × ℚ :=
  let cur := if epoch ∈ s.milestones then s.milestones.indexOf epoch
             else s.current
  let active := s.schedulers.getD cur (Sub.expoSub 0 0)
  (⟨s.schedulers, s.milestones, cur, epoch⟩, active.get_lr epoch)

/-- Constructor of SequentialLR (lines 877-883): the first statement passes
self.current_scheduler.optimizer to the base initializer, but the attribute
current_scheduler is assigned only two statements later, so every
construction raises an AttributeError. -/
def mk (schedulers : List Sub) (milestones : List ℤ) (last_epoch : ℤ) :
    Except PyErr Obj :=
  let current_scheduler : Option Sub := none
  match current_scheduler with
  | none => Except.error PyErr.attributeError
  | some _ => Except.ok ⟨schedulers, milestones, 0, last_epoch⟩

end SequentialLR

/-- C2: the claim says construction of every scheduler variant raises no
error; in the code every subclass assigns its own fields only after the base
initializer has already called step and get_lr, so construction of an
ExponentialLR bound to a valid optimizer raises an AttributeError for every
learning rate, gamma and initial epoch, and construction of a
CosineAnnealingLR with the default initial epoch minus one does too. -/
theorem C2_scheduler_construction_fails :
    (∀ (optLr gamma : ℚ) (last_epoch : ℤ),
      ExponentialLR.mk optLr gamma last_epoch
        = Except.error PyErr.attributeError)
    ∧ (∀ (cosf : ℚ → ℚ) (optLr : ℚ) (T_max : ℤ) (eta_min : ℚ),
      CosineAnnealingLR.mk cosf optLr T_max eta_min (-1)
        = Except.error PyErr.attributeError) := by
  constructor
  · intro optLr gamma last_epoch
    rfl
  · intro cosf optLr T_max eta_min
    simp [CosineAnnealingLR.mk, CosineAnnealingLR.get_lr]

/-- C3: construction of a SequentialLR always raises an AttributeError
because the first statement of its initializer reads the unassigned
current_scheduler attribute; moreover, on the intended post-construction
state with sub-schedulers s1 (StepLR, step size two, gamma one half) and s2
(ExponentialLR, gamma one half) and milestone list holding five, stepping to
epoch five switches current_scheduler to index zero, that is back to s1, so
the written learning rate is the s1 value one quarter and not the s2 value
one thirty-second that the claim requires from epoch five onward. -/
theorem C3_sequential_milestone_divergence :
    (∀ (schedulers : List SequentialLR.Sub) (milestones : List ℤ)
      (last_epoch : ℤ),
      SequentialLR.mk schedulers milestones last_epoch
        = Except.error PyErr.attributeError)
    ∧ (SequentialLR.step
        ⟨[SequentialLR.Sub.stepSub 1 (1/2) 2, SequentialLR.Sub.expoSub 1 (1/2)],
          [5], 0, 4⟩ 5).1.current = 0
    ∧ (SequentialLR.step
        ⟨[SequentialLR.Sub.stepSub 1 (1/2) 2, SequentialLR.Sub.expoSub 1 (1/2)],
          [5], 0, 4⟩ 5).2
      = (SequentialLR.Sub.stepSub 1 (1/2) 2).get_lr 5
    ∧ (SequentialLR.Sub.stepSub 1 (1/2) 2).get_lr 5 = 1/4
    ∧ (SequentialLR.Sub.expoSub 1 (1/2)).get_lr 5 = 1/32
    ∧ ((1 : ℚ)/4) ≠ ((1 : ℚ)/32) := by
  refine ⟨fun _ _ _ => rfl, ?_, ?_, ?_, ?_, by norm_num⟩
  · rfl
  · rfl
  · have hfd : Int.fdiv 5 2 = 2 := rfl
    norm_num [SequentialLR.Sub.get_lr, hfd]
  · norm_num [SequentialLR.Sub.get_lr]

/-- C4, counterexample: an Adafactor engine constructed with the default
learning rate None has no learning_rate entry, and the getter raises a
KeyError instead of returning a scalar, refuting the claim for that rule and
constructor arguments. -/
theorem C4_learning_rate_counterexample :
    learning_rate_get (Adafactor.freshEngine
      ⟨none, 1/10^30, 1/1000, 1, -(4/5), none, 0, true, true, false⟩)
      = Except.error PyErr.keyError := by
  rfl

/-- C4 (amended): the learning_rate entry is present from construction for
every rule whose constructor receives a learning rate, including Adafactor
when one is given, and the getter returns exactly that scalar; gradient
application never changes the entry, for any rule, so it is never inferred
from gradients.  Adafactor constructed without a learning rate is the one
exception: its state has no such entry. -/
theorem C4_learning_rate_present :
    (∀ c : SGD.Cfg,
      learning_rate_get (SGD.freshEngine c) = Except.ok c.learning_rate)
    ∧ (∀ c : RMSprop.Cfg,
      learning_rate_get (RMSprop.freshEngine c) = Except.ok c.learning_rate)
    ∧ (∀ c : Adagrad.Cfg,
      learning_rate_get (Adagrad.freshEngine c) = Except.ok c.learning_rate)
    ∧ (∀ c : AdaDelta.Cfg,
      learning_rate_get (AdaDelta.freshEngine c) = Except.ok c.learning_rate)
    ∧ (∀ c : Adam.Cfg,
      learning_rate_get (Adam.freshEngine c) = Except.ok c.learning_rate)
    ∧ (∀ c : AdamW.Cfg,
      learning_rate_get (AdamW.freshEngine c) = Except.ok c.learning_rate)
    ∧ (∀ c : Adam.Cfg,
      learning_rate_get (Adamax.freshEngine c) = Except.ok c.learning_rate)
    ∧ (∀ c : Lion.Cfg,
      learning_rate_get (Lion.freshEngine c) = Except.ok c.learning_rate)
    ∧ (∀ (c : Adafactor.Cfg) (l : ℚ), c.learning_rate = some l →
      learning_rate_get (Adafactor.freshEngine c) = Except.ok l)
    ∧ (∀ {S : Type} (R : Rule S) (g p : PyTree ℚ) (e : EngineState S)
        (out : PyTree ℚ) (e1 : EngineState S),
      apply_gradients R g p e = some (out, e1) → e1.lr = e.lr) := by
  refine ⟨fun c => rfl, fun c => rfl, fun c => rfl, fun c => rfl, fun c => rfl,
    fun c => rfl, fun c => rfl, fun c => rfl, ?_, ?_⟩
  · intro c l hl
    simp [learning_rate_get, Adafactor.freshEngine, hl]
  · intro S R g p e out e1 h
    obtain ⟨bi, lrv, stv⟩ := e
    cases bi with
    | true =>
        simp only [apply_gradients, reduceIte] at h
        cases lrv with
        | none => simp at h
        | some l =>
            cases stv with
            | none => simp at h
            | some st =>
                simp only at h
                rcases hz : PyTree.zip3 (fun a b c => R.apply_single l a b c)
                    g p st with _ | t
                · rw [hz] at h; simp at h
                · rw [hz] at h
                  simp only [Option.some_inj] at h
                  have := congrArg Prod.snd h
                  simp only at this
                  rw [← this]
    | false =>
        simp only [apply_gradients, engine_init, Bool.false_eq_true,
          reduceIte] at h
        cases lrv with
        | none => simp at h
        | some l =>
            simp only at h
            rcases hz : PyTree.zip3 (fun a b c => R.apply_single l a b c)
                g p (g.map R.init_single) with _ | t
            · rw [hz] at h; simp at h
            · rw [hz] at h
              simp only [Option.some_inj] at h
              have := congrArg Prod.snd h
              simp only at this
              rw [← this]

/-- Witness for C4 (amended): an Adafactor engine given the learning rate one
hundredth returns it through the getter, and a concrete SGD gradient
application leaves the learning_rate entry untouched. -/
theorem C4_learning_rate_present_witness :
    learning_rate_get (Adafactor.freshEngine
        ⟨some (1/100), 1/10^30, 1/1000, 1, -(4/5), none, 0, true, true, false⟩)
      = Except.ok (1/100)
    ∧ (⟨true, some (1/10), some (.leaf 1)⟩ : EngineState ℚ).lr
      = (SGD.freshEngine ⟨1/10, 9/10, 0, 0, false⟩).lr := by
  constructor
  · exact C4_learning_rate_present.2.2.2.2.2.2.2.2.1
      ⟨some (1/100), 1/10^30, 1/1000, 1, -(4/5), none, 0, true, true, false⟩
      (1/100) rfl
  · have h : apply_gradients (SGD.rule ⟨1/10, 9/10, 0, 0, false⟩) (.leaf 1)
        (.leaf 1) (SGD.freshEngine ⟨1/10, 9/10, 0, 0, false⟩)
        = some (.leaf (9/10), ⟨true, some (1/10), some (.leaf 1)⟩) := by
      norm_num [apply_gradients, engine_init, SGD.rule, SGD.freshEngine,
        SGD.apply_single, SGD.init_single, PyTree.map, PyTree.zip3]
    exact C4_learning_rate_present.2.2.2.2.2.2.2.2.2
      (SGD.rule ⟨1/10, 9/10, 0, 0, false⟩) (.leaf 1) (.leaf 1)
      (SGD.freshEngine ⟨1/10, 9/10, 0, 0, false⟩)
      (.leaf (9/10)) ⟨true, some (1/10), some (.leaf 1)⟩ h

/-- C5: the StepLR formula with step size ten, gamma one half and base rate
one yields one, one, one half, one half, one quarter at last epochs zero,
nine, ten, nineteen and twenty, with integer floor division. -/
theorem C5_stepLR_values :
    StepLR.get_lr 1 (1/2) 10 0 = 1
    ∧ StepLR.get_lr 1 (1/2) 10 9 = 1
    ∧ StepLR.get_lr 1 (1/2) 10 10 = 1/2
    ∧ StepLR.get_lr 1 (1/2) 10 19 = 1/2
    ∧ StepLR.get_lr 1 (1/2) 10 20 = 1/4 := by
  have h0 : Int.fdiv 0 10 = 0 := rfl
  have h9 : Int.fdiv 9 10 = 0 := rfl
  have h10 : Int.fdiv 10 10 = 1 := rfl
  have h19 : Int.fdiv 19 10 = 1 := rfl
  have h20 : Int.fdiv 20 10 = 2 := rfl
  refine ⟨?_, ?_, ?_, ?_, ?_⟩ <;>
    norm_num [StepLR.get_lr, h0, h9, h10, h19, h20]

/-- C6: SGD with momentum nine tenths, zero dampening, no nesterov, learning
rate one tenth and zero weight decay, starting from v zero, parameter one and
gradient one: the first apply_single call yields parameter nine tenths with v
one, and the second identical call yields parameter seventy-one hundredths
with v nineteen tenths. -/
theorem C6_sgd_two_steps :
    SGD.apply_single ⟨1/10, 9/10, 0, 0, false⟩ (1/10) 1 1 0 = (9/10, 1)
    ∧ SGD.apply_single ⟨1/10, 9/10, 0, 0, false⟩ (1/10) 1 (9/10) 1
      = (71/100, 19/10) := by
  constructor <;> norm_num [SGD.apply_single, Prod.ext_iff]

/-- C7, counterexample: Adafactor with first moment enabled violates the
claim.  With relative step disabled, learning rate zero, gradient zero, no
weight decay, parameter one and a state whose exp_avg entry is two (reachable
after earlier steps), the returned parameter is zero, not one: the
first-moment smoothing is applied after the learning-rate multiplication, so
the stale exp_avg itself becomes the update.  The external functions are
instantiated concretely; the outcome does not depend on them. -/
theorem C7_zero_update_counterexample :
    (Adafactor.apply_single ⟨fun _ => 0, fun _ => 0, fun _ _ => 0⟩
      ⟨some 0, 0, 1/1000, 1, -(4/5), some (1/2), 0, false, false, false⟩
      0 0 1 ⟨1, 0, 2⟩).1 = 0 := by
  norm_num [Adafactor.apply_single, Adafactor.compute_learning_rate,
    Adafactor.compute_rms]

/-- C7 (amended): with a zero gradient and a zero learning rate, apply_single
returns the parameter unchanged for SGD, RMSprop, Adagrad, AdaDelta, Adam,
AdamW, Adamax and Lion, for every hyperparameter configuration including
nonzero weight decay (whose decay term is scaled by the zero learning rate
and therefore vanishes), every state node and every choice of the external
square-root functions; for Adafactor (with relative step disabled, so that
the zero learning rate is in effect) the same holds whenever the first
moment is disabled, or enabled with a zero exp_avg entry as fresh
initialization leaves it. -/
theorem C7_zero_grad_zero_lr_fixed :
    (∀ (L m w d : ℚ) (n : Bool) (p v : ℚ),
      (SGD.apply_single ⟨L, m, w, d, n⟩ 0 0 p v).1 = p)
    ∧ (∀ (sq : ℚ → ℚ) (c : RMSprop.Cfg) (p v : ℚ),
      (RMSprop.apply_single sq c 0 0 p v).1 = p)
    ∧ (∀ (sq : ℚ → ℚ) (c : Adagrad.Cfg) (p v : ℚ),
      (Adagrad.apply_single sq c 0 0 p v).1 = p)
    ∧ (∀ (sq : ℚ → ℚ) (c : AdaDelta.Cfg) (p v u : ℚ),
      (AdaDelta.apply_single sq c 0 0 p v u).1 = p)
    ∧ (∀ (sq : ℚ → ℚ) (c : Adam.Cfg) (p m v : ℚ),
      (Adam.apply_single sq c 0 0 p m v).1 = p)
    ∧ (∀ (sq : ℚ → ℚ) (c : AdamW.Cfg) (p m v : ℚ),
      (AdamW.apply_single sq c 0 0 p m v).1 = p)
    ∧ (∀ (c : Adam.Cfg) (p m v : ℚ),
      (Adamax.apply_single c 0 0 p m v).1 = p)
    ∧ (∀ (c : Lion.Cfg) (p m : ℚ),
      (Lion.apply_single c 0 0 p m).1 = p)
    ∧ (∀ (ops : Adafactor.Ops) (lrf : Option ℚ) (e1 e2 ct dr wd : ℚ)
        (sp wi : Bool) (stp : ℕ) (sqv mv p : ℚ),
      (Adafactor.apply_single ops ⟨lrf, e1, e2, ct, dr, none, wd, sp, false, wi⟩
        0 0 p ⟨stp, sqv, mv⟩).1 = p)
    ∧ (∀ (ops : Adafactor.Ops) (lrf : Option ℚ) (e1 e2 ct dr b1 wd : ℚ)
        (sp wi : Bool) (stp : ℕ) (sqv p : ℚ),
      (Adafactor.apply_single ops
        ⟨lrf, e1, e2, ct, dr, some b1, wd, sp, false, wi⟩
        0 0 p ⟨stp, sqv, 0⟩).1 = p) := by
  refine ⟨?_, ?_, ?_, ?_, ?_, ?_, ?_, ?_, ?_, ?_⟩
  · intro L m w d n p v
    simp only [SGD.apply_single]
    split <;> simp
  · intro sq c p v
    simp [RMSprop.apply_single]
  · intro sq c p v
    simp [Adagrad.apply_single]
  · intro sq c p v u
    simp [AdaDelta.apply_single]
  · intro sq c p m v
    simp [Adam.apply_single]
  · intro sq c p m v
    simp [AdamW.apply_single, Adam.apply_single]
  · intro c p m v
    simp [Adamax.apply_single]
  · intro c p m
    simp only [Lion.apply_single]
    split <;> simp
  · intro ops lrf e1 e2 ct dr wd sp wi stp sqv mv p
    simp only [Adafactor.apply_single, Adafactor.compute_learning_rate,
      Adafactor.compute_rms]
    norm_num
  · intro ops lrf e1 e2 ct dr b1 wd sp wi stp sqv p
    simp only [Adafactor.apply_single, Adafactor.compute_learning_rate,
      Adafactor.compute_rms]
    norm_num

/-- C8: the Adagrad state entry v never decreases across an apply_single
call, for every gradient; and for RMSprop, whenever alpha lies between zero
and one, the new v is a convex combination of the previous v and the squared
gradient, hence lies between their minimum and their maximum. -/
theorem C8_second_moment_bounds :
    (∀ (sq : ℚ → ℚ) (c : Adagrad.Cfg) (lr g p v : ℚ),
      v ≤ (Adagrad.apply_single sq c lr g p v).2)
    ∧ (∀ (sq : ℚ → ℚ) (c : RMSprop.Cfg) (lr g p v : ℚ),
      0 ≤ c.alpha → c.alpha ≤ 1 →
      min v (g ^ 2) ≤ (RMSprop.apply_single sq c lr g p v).2
        ∧ (RMSprop.apply_single sq c lr g p v).2 ≤ max v (g ^ 2)) := by
  constructor
  · intro sq c lr g p v
    simp only [Adagrad.apply_single]
    nlinarith [sq_nonneg g]
  · intro sq c lr g p v h0 h1
    simp only [RMSprop.apply_single]
    have ha : (0 : ℚ) ≤ 1 - c.alpha := by linarith
    have t1 : c.alpha * min v (g ^ 2) ≤ c.alpha * v :=
      mul_le_mul_of_nonneg_left (min_le_left _ _) h0
    have t2 : (1 - c.alpha) * min v (g ^ 2) ≤ (1 - c.alpha) * g ^ 2 :=
      mul_le_mul_of_nonneg_left (min_le_right _ _) ha
    have t3 : c.alpha * v ≤ c.alpha * max v (g ^ 2) :=
      mul_le_mul_of_nonneg_left (le_max_left _ _) h0
    have t4 : (1 - c.alpha) * g ^ 2 ≤ (1 - c.alpha) * max v (g ^ 2) :=
      mul_le_mul_of_nonneg_left (le_max_right _ _) ha
    have emin : c.alpha * min v (g ^ 2) + (1 - c.alpha) * min v (g ^ 2)
        = min v (g ^ 2) := by ring
    have emax : c.alpha * max v (g ^ 2) + (1 - c.alpha) * max v (g ^ 2)
        = max v (g ^ 2) := by ring
    constructor
    · linarith
    · linarith

/-- Witness for C8 at alpha one half, previous v zero and gradient one: the
new v lies between zero and one. -/
theorem C8_second_moment_bounds_witness :
    min (0 : ℚ) ((1 : ℚ) ^ 2)
      ≤ (RMSprop.apply_single (fun _ => 0) ⟨1, 1/2, 0⟩ 0 1 0 0).2
    ∧ (RMSprop.apply_single (fun _ => 0) ⟨1, 1/2, 0⟩ 0 1 0 0).2
      ≤ max (0 : ℚ) ((1 : ℚ) ^ 2) :=
  C8_second_moment_bounds.2 (fun _ => 0) ⟨1, 1/2, 0⟩ 0 1 0 0
    (by norm_num) (by norm_num)

/-- C9: an optimizer constructor raises exactly on the listed out-of-domain
hyperparameters: SGD on nesterov with non-positive momentum or nonzero
dampening, RMSprop on negative alpha or negative eps, Adagrad on negative
eps, AdaDelta on negative rho or negative eps; and the scheduler base
initializer raises a TypeError exactly when the bound object is not an
update-rule engine.  Each of these raises during construction, before any
update or step is performed, since the checked constructor either returns the
error or the configuration. -/
theorem C9_construction_validation :
    (∀ (l m w d : ℚ) (n : Bool),
      isErr (SGD.mk l m w d n) = true ↔ (n = true ∧ (m ≤ 0 ∨ d ≠ 0)))
    ∧ (∀ (l a e : ℚ),
      isErr (RMSprop.mk l a e) = true ↔ (a < 0 ∨ e < 0))
    ∧ (∀ (l e : ℚ), isErr (Adagrad.mk l e) = true ↔ e < 0)
    ∧ (∀ (l r e : ℚ),
      isErr (AdaDelta.mk l r e) = true ↔ (r < 0 ∨ e < 0))
    ∧ (∀ b : Bindable,
      isErr (LRScheduler.bind_check b) = true ↔ b = Bindable.nonEngine) := by
  refine ⟨?_, ?_, ?_, ?_, ?_⟩
  · intro l m w d n
    by_cases h : n = true ∧ (m ≤ 0 ∨ d ≠ 0)
    · simp only [SGD.mk, if_pos h, isErr]
      exact iff_of_true trivial h
    · simp only [SGD.mk, if_neg h, isErr]
      exact iff_of_false (by simp) h
  · intro l a e
    by_cases h1 : a < 0
    · simp only [RMSprop.mk, if_pos h1, isErr]
      exact iff_of_true trivial (Or.inl h1)
    · by_cases h2 : e < 0
      · simp only [RMSprop.mk, if_neg h1, if_pos h2, isErr]
        exact iff_of_true trivial (Or.inr h2)
      · simp only [RMSprop.mk, if_neg h1, if_neg h2, isErr]
        exact iff_of_false (by simp) (by tauto)
  · intro l e
    by_cases h : e < 0
    · simp only [Adagrad.mk, if_pos h, isErr]
      exact iff_of_true trivial h
    · simp only [Adagrad.mk, if_neg h, isErr]
      exact iff_of_false (by simp) h
  · intro l r e
    by_cases h1 : r < 0
    · simp only [AdaDelta.mk, if_pos h1, isErr]
      exact iff_of_true trivial (Or.inl h1)
    · by_cases h2 : e < 0
      · simp only [AdaDelta.mk, if_neg h1, if_pos h2, isErr]
        exact iff_of_true trivial (Or.inr h2)
      · simp only [AdaDelta.mk, if_neg h1, if_neg h2, isErr]
        exact iff_of_false (by simp) (by tauto)
  · intro b
    cases b with
    | engine lr => simp [LRScheduler.bind_check, isErr]
    | nonEngine => simp [LRScheduler.bind_check, isErr]

/-- C10: the Adam constructor performs no validation and succeeds for every
learning rate, betas and eps, negative eps included, while the Adamax,
RMSprop, Adagrad and AdaDelta constructors all reject a negative eps with a
ValueError. -/
theorem C10_adam_no_validation :
    (∀ (l b1 b2 e : ℚ), Adam.mk l b1 b2 e = Except.ok ⟨l, b1, b2, e⟩)
    ∧ (∀ (l b1 b2 e : ℚ), e < 0 → isErr (Adamax.mk l b1 b2 e) = true)
    ∧ (∀ (l a e : ℚ), e < 0 → isErr (RMSprop.mk l a e) = true)
    ∧ (∀ (l e : ℚ), e < 0 → isErr (Adagrad.mk l e) = true)
    ∧ (∀ (l r e : ℚ), e < 0 → isErr (AdaDelta.mk l r e) = true) := by
  refine ⟨fun l b1 b2 e => rfl, ?_, ?_, ?_, ?_⟩
  · intro l b1 b2 e he
    simp only [Adamax.mk, if_pos (by linarith : ¬ (0 : ℚ) ≤ e), isErr]
  · intro l a e he
    by_cases h1 : a < 0
    · simp [RMSprop.mk, if_pos h1, isErr]
    · simp only [RMSprop.mk, if_neg h1, if_pos he, isErr]
  · intro l e he
    simp only [Adagrad.mk, if_pos he, isErr]
  · intro l r e he
    by_cases h1 : r < 0
    · simp [AdaDelta.mk, if_pos h1, isErr]
    · simp only [AdaDelta.mk, if_neg h1, if_pos he, isErr]

/-- Witness for C10 at eps minus one: Adam construction succeeds while the
four validating constructors reject. -/
theorem C10_adam_no_validation_witness :
    Adam.mk 1 (9/10) (999/1000) (-1) = Except.ok ⟨1, 9/10, 999/1000, -1⟩
    ∧ isErr (Adamax.mk 1 (9/10) (999/1000) (-1)) = true
    ∧ isErr (RMSprop.mk 1 (99/100) (-1)) = true
    ∧ isErr (Adagrad.mk 1 (-1)) = true
    ∧ isErr (AdaDelta.mk 1 (9/10) (-1)) = true :=
  ⟨C10_adam_no_validation.1 1 (9/10) (999/1000) (-1),
   C10_adam_no_validation.2.1 1 (9/10) (999/1000) (-1) (by norm_num),
   C10_adam_no_validation.2.2.1 1 (99/100) (-1) (by norm_num),
   C10_adam_no_validation.2.2.2.1 1 (-1) (by norm_num),
   C10_adam_no_validation.2.2.2.2 1 (9/10) (-1) (by norm_num)⟩
